import Mathlib

/-!
Verification development for the music-match-service repository.

We give a shallow embedding of the core logic of `app/services.py` and
`app/main.py`:

* `clean_string`            — `SpotifyService.clean_string` (regex feat-removal,
                              whitespace collapsing, stripping, lower-casing);
* `fuzzRatioZ`              — the `fuzzywuzzy.fuzz.ratio` similarity used by the
                              scorer (difflib `SequenceMatcher.ratio` backend,
                              scaled to 0..100 and rounded);
* `calculate_relevance_score` — `SpotifyService.calculate_relevance_score`;
* `search_mixed_core` / `search_mixed` — `SpotifyService.search_mixed`;
* `get_platform_links`, `get_detailed_platform_data`, `get_songlink_page_url`
                            — `SongLinkService`;
* `platform_count`, `confidence_score` — the confidence computation in
                              `match_across_platforms` (`app/main.py`).

Machine reals (Python floats) are modelled as rationals; Python strings as
`String`/`List Char`; fallible operations (`track['artists'][0]` on an empty
list) as `Option`.
-/

namespace MusicMatch

/-! ## Python string primitives -/

/-- Characters matched by Python's `\s` (for `str` patterns) and stripped by
`str.strip()`: ASCII whitespace, the separator control characters, and the
Unicode space characters. -/
def pySpace (c : Char) : Bool :=
  decide (c.toNat = 32 ∨ (9 ≤ c.toNat ∧ c.toNat ≤ 13) ∨ (28 ≤ c.toNat ∧ c.toNat ≤ 31) ∨
    c.toNat = 0x85 ∨ c.toNat = 0xA0 ∨ c.toNat = 0x1680 ∨
    (0x2000 ≤ c.toNat ∧ c.toNat ≤ 0x200A) ∨
    c.toNat = 0x2028 ∨ c.toNat = 0x2029 ∨ c.toNat = 0x202F ∨
    c.toNat = 0x205F ∨ c.toNat = 0x3000)

/-- Python `str.lower()` on a single character (ASCII range, the only case
exercised by the service's catalog data). -/
def pyToLower (c : Char) : Char :=
  if 65 ≤ c.toNat ∧ c.toNat ≤ 90 then Char.ofNat (c.toNat + 32) else c

/-- Python `str.lower()`. -/
def lowerList (l : List Char) : List Char := l.map pyToLower

/-- `needle` is an initial segment of `hay`. -/
def leadsWith : List Char → List Char → Bool
  | [], _ => true
  | _ :: _, [] => false
  | a :: as, b :: bs => a = b && leadsWith as bs

/-- Python's substring test `needle in hay`. -/
def pyIn (needle : List Char) : List Char → Bool
  | [] => decide (needle = [])
  | c :: rest => leadsWith needle (c :: rest) || pyIn needle rest

/-- Python `sep.join(parts)`. -/
def pyJoin (sep : String) : List String → String
  | [] => ""
  | [a] => a
  | a :: b :: rest => a ++ sep ++ pyJoin sep (b :: rest)

/-! ## The feat-parenthetical regex

`re.sub(r'\(feat\..*?\)|\(featuring.*?\)', '', s, flags=re.IGNORECASE)`:
scan left to right; at each position try alternative 1 `\(feat\..*?\)`, then
alternative 2 `\(featuring.*?\)`; a lazy `.*?\)` consumes up to the first `)`
with no newline in between (`.` does not match `\n`); each match is removed
and scanning resumes after it. -/

/-- Match a fixed lower-case pattern case-insensitively at the head of `s`,
returning the remainder. -/
def stripCI : List Char → List Char → Option (List Char)
  | [], s => some s
  | _ :: _, [] => none
  | p :: ps, c :: cs => if pyToLower c = p then stripCI ps cs else none

/-- The lazy `.*?\)` tail: skip to the first `)`, failing on `\n` or
end-of-string. Returns the remainder after the `)`. -/
def lazyClose : List Char → Option (List Char)
  | [] => none
  | c :: cs => if c = ')' then some cs else if c = '\n' then none else lazyClose cs

/-- Try to match the whole regex at the head of `s`; on success return the
remainder after the match. -/
def matchFeatAt (s : List Char) : Option (List Char) :=
  match stripCI "(feat.".data s with
  | some rest => lazyClose rest
  | none =>
    match stripCI "(featuring".data s with
    | some rest => lazyClose rest
    | none => none

theorem stripCI_length_le : ∀ (pat s r : List Char), stripCI pat s = some r →
    r.length ≤ s.length := by
  intro pat
  induction pat with
  | nil => intro s r h; simp [stripCI] at h; simp [h]
  | cons p ps ih =>
    intro s r h
    cases s with
    | nil => simp [stripCI] at h
    | cons c cs =>
      simp only [stripCI] at h
      split at h
      · exact Nat.le_trans (ih cs r h) (Nat.le_succ _)
      · exact absurd h (by simp)

theorem lazyClose_length_lt : ∀ (s r : List Char), lazyClose s = some r →
    r.length < s.length := by
  intro s
  induction s with
  | nil => intro r h; simp [lazyClose] at h
  | cons c cs ih =>
    intro r h
    simp only [lazyClose] at h
    split at h
    · cases h; simp
    · split at h
      · exact absurd h (by simp)
      · exact Nat.lt_trans (ih r h) (Nat.lt_succ_self _)

theorem matchFeatAt_length_lt (s r : List Char) (h : matchFeatAt s = some r) :
    r.length < s.length := by
  unfold matchFeatAt at h
  rcases h1 : stripCI "(feat.".data s with _ | mid
  · rw [h1] at h
    rcases h2 : stripCI "(featuring".data s with _ | mid2
    · rw [h2] at h; exact absurd h (by simp)
    · rw [h2] at h
      exact Nat.lt_of_lt_of_le (lazyClose_length_lt mid2 r h)
        (stripCI_length_le _ s mid2 h2)
  · rw [h1] at h
    exact Nat.lt_of_lt_of_le (lazyClose_length_lt mid r h)
      (stripCI_length_le _ s mid h1)

/-- The scanning loop of the `re.sub` pass, structurally recursive on a fuel
argument so that it reduces in the kernel.  Each step consumes at least one
character of the remaining input (a match consumes at least seven, by
`matchFeatAt_length_lt`), so any fuel of at least the input length computes
the true fixpoint; the fuel-exhausted arm is unreachable from `featSub`. -/
def featSubAux : Nat → List Char → List Char
  | 0, s => s
  | _, [] => []
  | fuel + 1, c :: cs =>
    match matchFeatAt (c :: cs) with
    | some rest => featSubAux fuel rest
    | none => c :: featSubAux fuel cs

/-- `re.sub` pass: remove every (leftmost, non-overlapping) feat-parenthetical. -/
def featSub (s : List Char) : List Char := featSubAux s.length s

/-- The scanning loop of `re.sub(r'\s+', ' ', s)`: `prevSpace` records whether
the previous character was part of a whitespace run already emitted as a
single space. -/
def collapseGo (prevSpace : Bool) : List Char → List Char
  | [] => []
  | c :: cs =>
    if pySpace c then
      if prevSpace then collapseGo true cs else ' ' :: collapseGo true cs
    else c :: collapseGo false cs

/-- `re.sub(r'\s+', ' ', s)`: each maximal whitespace run becomes one space. -/
def collapseWS (s : List Char) : List Char := collapseGo false s

/-- Python `str.strip()`. -/
def pyStrip (s : List Char) : List Char :=
  ((s.dropWhile (pySpace ·)).reverse.dropWhile (pySpace ·)).reverse

/-- `SpotifyService.clean_string` (services.py lines 31-35):
remove feat-parentheticals, collapse whitespace, strip, lower-case. -/
def clean_string (s : String) : String :=
  ⟨lowerList (pyStrip (collapseWS (featSub s.data)))⟩

/-- No two adjacent whitespace characters. -/
def noDoubleSpace : List Char → Bool
  | [] => true
  | [_] => true
  | a :: b :: rest => (!(pySpace a && pySpace b)) && noDoubleSpace (b :: rest)

/-- Every whitespace character is a plain space. -/
def spacesAreBlank (l : List Char) : Bool :=
  l.all fun c => !pySpace c || decide (c = ' ')

/-! ## `fuzzywuzzy.fuzz.ratio`

The service calls `fuzz.ratio(s1, s2)`, which (with the pure-Python backend)
computes `int(round(100 * difflib.SequenceMatcher(None, s1, s2).ratio()))`.
`SequenceMatcher.ratio()` is `2*M/T` where `M` is the total size of the
matching blocks and `T = len(a) + len(b)` (`1.0` when `T = 0`).  With
`isjunk=None` the junk set is empty, so only the `autojunk` filter (characters
occurring more than `len(b)//100 + 1` times when `len(b) >= 200`) affects the
index map `b2j`, and the junk extension loops of `find_longest_match` are
no-ops.  Floats are modelled as rationals; `round` is round-half-to-even. -/

/-- Index into a string; all uses are in range. -/
def getC (l : List Char) (i : Nat) : Char := l.getD i ' '

/-- The increasing list of positions of `c` in `b`. -/
def charPositions (b : List Char) (c : Char) : List Nat :=
  (List.range b.length).filter (fun j => getC b j = c)

/-- `b2j` of `SequenceMatcher.__chain_b`: positions of `c` in `b`, with
"popular" entries removed by autojunk. -/
def b2jMap (b : List Char) (c : Char) : List Nat :=
  let ps := charPositions b c
  if 200 ≤ b.length ∧ b.length / 100 + 1 < ps.length then [] else ps

/-- The running best match of `find_longest_match`. -/
structure FlmBest where
  besti : Nat
  bestj : Nat
  bestsize : Nat
deriving DecidableEq

/-- The inner loop of `find_longest_match` for one row `i`: fold over the
positions `j` of `a[i]` in `b` (already restricted to `[blo, bhi)`), building
the new `j2len` row from the previous one and updating the best match. -/
def flmInner (j2len : Nat → Nat) (i : Nat) (js : List Nat) (best : FlmBest) :
    (Nat → Nat) × FlmBest :=
  js.foldl
    (fun acc j =>
      let k := (if j = 0 then 0 else j2len (j - 1)) + 1
      (fun x => if x = j then k else acc.1 x,
       if acc.2.bestsize < k then ⟨i + 1 - k, j + 1 - k, k⟩ else acc.2))
    (fun _ => 0, best)

/-- The dynamic-programming loop of `find_longest_match` over `i ∈ [alo, ahi)`. -/
def flmLoop (a b : List Char) (alo ahi blo bhi : Nat) : (Nat → Nat) × FlmBest :=
  (List.range' alo (ahi - alo)).foldl
    (fun acc i =>
      let js := ((b2jMap b (getC a i)).takeWhile (fun j => j < bhi)).filter
        (fun j => blo ≤ j)
      flmInner acc.1 i js acc.2)
    (fun _ => 0, ⟨alo, blo, 0⟩)

/-- Backward extension loop of `find_longest_match` (the junk set is empty, so
the non-junk condition is just character equality).  `fuel` bounds the loop;
`besti` strictly decreases, so `fuel = besti` is exact. -/
def extendBack (a b : List Char) (alo blo : Nat) : Nat → FlmBest → FlmBest
  | 0, st => st
  | fuel + 1, st =>
    if alo < st.besti ∧ blo < st.bestj ∧
        getC a (st.besti - 1) = getC b (st.bestj - 1) then
      extendBack a b alo blo fuel ⟨st.besti - 1, st.bestj - 1, st.bestsize + 1⟩
    else st

/-- Forward extension loop of `find_longest_match`. -/
def extendFwd (a b : List Char) (ahi bhi : Nat) : Nat → FlmBest → FlmBest
  | 0, st => st
  | fuel + 1, st =>
    if st.besti + st.bestsize < ahi ∧ st.bestj + st.bestsize < bhi ∧
        getC a (st.besti + st.bestsize) = getC b (st.bestj + st.bestsize) then
      extendFwd a b ahi bhi fuel ⟨st.besti, st.bestj, st.bestsize + 1⟩
    else st

/-- `SequenceMatcher.find_longest_match` on `a[alo:ahi]`, `b[blo:bhi]`. -/
def find_longest_match (a b : List Char) (alo ahi blo bhi : Nat) : FlmBest :=
  let st := (flmLoop a b alo ahi blo bhi).2
  extendFwd a b ahi bhi bhi (extendBack a b alo blo st.besti st)

/-- Total size of the matching blocks (`get_matching_blocks` recursion; queue
order does not affect the sum, and the adjacent-block merge preserves it).
`fuel` bounds the recursion depth; every recursive call strictly shrinks the
interval sum, so `a.length + b.length + 1` is enough. -/
def matchTotalAux (a b : List Char) : Nat → Nat → Nat → Nat → Nat → Nat
  | 0, _, _, _, _ => 0
  | fuel + 1, alo, ahi, blo, bhi =>
    let m := find_longest_match a b alo ahi blo bhi
    if m.bestsize = 0 then 0
    else
      m.bestsize +
        (if alo < m.besti ∧ blo < m.bestj then
          matchTotalAux a b fuel alo m.besti blo m.bestj else 0) +
        (if m.besti + m.bestsize < ahi ∧ m.bestj + m.bestsize < bhi then
          matchTotalAux a b fuel (m.besti + m.bestsize) ahi
            (m.bestj + m.bestsize) bhi else 0)

/-- `sum(size for (_, _, size) in get_matching_blocks())`. -/
def matchTotal (a b : List Char) : Nat :=
  matchTotalAux a b (a.length + b.length + 1) 0 a.length 0 b.length

/-- `SequenceMatcher.ratio()`: `2*M/T`, or `1.0` when both strings are empty. -/
def smRatioQ (a b : List Char) : ℚ :=
  let t := a.length + b.length
  if t ≠ 0 then 2 * (matchTotal a b : ℚ) / (t : ℚ) else 1

/-- Python 3 `round` (round half to even), on rationals. -/
def pyRound (q : ℚ) : ℤ :=
  if Int.fract q < 1 / 2 then ⌊q⌋
  else if 1 / 2 < Int.fract q then ⌊q⌋ + 1
  else if ⌊q⌋ % 2 = 0 then ⌊q⌋ else ⌊q⌋ + 1

/-- `fuzz.ratio(s1, s2)`: the scaled, rounded similarity in `0..100`. -/
def fuzzRatioZ (s1 s2 : String) : ℤ := pyRound (100 * smRatioQ s1.data s2.data)

/-! ## The relevance scorer -/

/-- `SpotifyService.calculate_relevance_score` (services.py lines 37-57). -/
def calculate_relevance_score (query title artist : String) : ℚ :=
  let query_clean := clean_string query
  let title_clean := clean_string title
  let artist_clean := clean_string artist
  let title_exact_match :=
    pyIn query_clean.data title_clean.data || pyIn title_clean.data query_clean.data
  let artist_match :=
    pyIn query_clean.data artist_clean.data || pyIn artist_clean.data query_clean.data
  let title_fuzzy : ℚ := (fuzzRatioZ query_clean title_clean : ℚ) / 100
  let artist_fuzzy : ℚ := (fuzzRatioZ query_clean artist_clean : ℚ) / 100
  let combined_fuzzy : ℚ :=
    (fuzzRatioZ query_clean (title_clean ++ " " ++ artist_clean) : ℚ) / 100
  let score : ℚ := 0
  let score := if title_exact_match then score + 0.5 else score
  let score := if artist_match then score + 0.3 else score
  let score := score + (title_fuzzy * 0.4 + artist_fuzzy * 0.2 + combined_fuzzy * 0.3)
  min 1 score

/-! ## Catalog data model and the result fuser (`search_mixed`) -/

/-- An artist object from the catalog provider (`{'name': ...}`). -/
structure SpArtist where
  name : String
deriving DecidableEq

/-- A track item as returned by the provider's track search. -/
structure SpTrack where
  name : String
  artists : List SpArtist
  album_name : String
  album_images : List String
  duration_ms : Nat
  isrc : Option String
  id : String
  spotify_url : String
  preview_url : Option String
deriving DecidableEq

/-- An album item as returned by the provider's album search. -/
structure SpAlbum where
  name : String
  artists : List SpArtist
  images : List String
  total_tracks : Nat
  release_date : String
  id : String
  spotify_url : String
deriving DecidableEq

/-- `models.TrackMetadata`. -/
structure TrackMetadata where
  title : String
  artist : String
  album : String
  cover_image : Option String
  duration_ms : Nat
  isrc : Option String
  spotify_id : String
  spotify_url : String
  preview_url : Option String
  content_type : String := "track"
deriving DecidableEq

/-- `models.AlbumMetadata`. -/
structure AlbumMetadata where
  title : String
  artist : String
  cover_image : Option String
  total_tracks : Nat
  release_date : String
  spotify_id : String
  spotify_url : String
  content_type : String := "album"
deriving DecidableEq

/-- One element of `search_mixed`'s `List[Any]` result. -/
inductive MixedItem where
  | track (m : TrackMetadata)
  | album (m : AlbumMetadata)
deriving DecidableEq

/-- The `TrackMetadata(...)` construction in `search_mixed` (services.py 70-81). -/
def projectTrack (t : SpTrack) : TrackMetadata :=
  { title := t.name
    artist := pyJoin ", " (t.artists.map (·.name))
    album := t.album_name
    cover_image := t.album_images.head?
    duration_ms := t.duration_ms
    isrc := t.isrc
    spotify_id := t.id
    spotify_url := t.spotify_url
    preview_url := t.preview_url
    content_type := "track" }

/-- The `AlbumMetadata(...)` construction in `search_mixed` (services.py 87-96). -/
def projectAlbum (a : SpAlbum) : AlbumMetadata :=
  { title := a.name
    artist := pyJoin ", " (a.artists.map (·.name))
    cover_image := a.images.head?
    total_tracks := a.total_tracks
    release_date := a.release_date
    spotify_id := a.id
    spotify_url := a.spotify_url
    content_type := "album" }

/-- Processing of one track candidate: project it and score it against the
query using the track's title and `track['artists'][0]['name']`; the indexing
raises `IndexError` (modelled `none`) on an empty artist list. -/
def score_track (query : String) (t : SpTrack) : Option (MixedItem × ℚ) :=
  match t.artists with
  | [] => none
  | a0 :: _ =>
    some (.track (projectTrack t), calculate_relevance_score query t.name a0.name)

/-- Processing of one album candidate, as for tracks. -/
def score_album (query : String) (a : SpAlbum) : Option (MixedItem × ℚ) :=
  match a.artists with
  | [] => none
  | a0 :: _ =>
    some (.album (projectAlbum a), calculate_relevance_score query a.name a0.name)

/-- One processing loop: apply `f` to each candidate in order, failing the
whole loop at the first candidate that raises. -/
def score_list {α : Type} (f : α → Option (MixedItem × ℚ)) :
    List α → Option (List (MixedItem × ℚ))
  | [] => some []
  | x :: xs => do
    let y ← f x
    let ys ← score_list f xs
    pure (y :: ys)

/-- `mixed_results` after both processing loops: all scored tracks, then all
scored albums; `none` if any candidate raised. -/
def scored_candidates (query : String) (tracks : List SpTrack)
    (albums : List SpAlbum) : Option (List (MixedItem × ℚ)) := do
  let ts ← score_list (score_track query) tracks
  let als ← score_list (score_album query) albums
  pure (ts ++ als)

/-- The comparison of `mixed_results.sort(key=lambda x: x[1], reverse=True)`:
`x` sorts no later than `y` iff `x`'s score is no smaller (Python's sort is
stable, and stable descending sorting by a total preorder is uniquely
determined, so `List.mergeSort` with this relation models it exactly). -/
def scoreLE (x y : MixedItem × ℚ) : Bool := y.2 ≤ x.2

/-- `SpotifyService.search_mixed` (services.py 59-106) given the two provider
result lists: score, merge, stable-sort descending, truncate, strip scores.
A candidate with an empty artist list makes the whole call fail (`none`). -/
def search_mixed_core (query : String) (tracks : List SpTrack)
    (albums : List SpAlbum) (limit : Nat) : Option (List MixedItem) :=
  (scored_candidates query tracks albums).map
    (fun mixed => ((mixed.mergeSort scoreLE).take limit).map Prod.fst)

/-- The external catalog search capability (`self.spotify.search`), one
function per item kind, taking the query and the requested item count. -/
structure SpotifyClient where
  searchTracks : String → Nat → List SpTrack
  searchAlbums : String → Nat → List SpAlbum

/-- The track-search request size `max(5, limit // 2)` (services.py line 63). -/
def track_search_limit (limit : Nat) : Nat := max 5 (limit / 2)

/-- The album-search request size `max(3, limit // 3)` (services.py line 64). -/
def album_search_limit (limit : Nat) : Nat := max 3 (limit / 3)

/-- `search_mixed` including the two provider calls. -/
def search_mixed (client : SpotifyClient) (query : String) (limit : Nat) :
    Option (List MixedItem) :=
  search_mixed_core query
    (client.searchTracks query (track_search_limit limit))
    (client.searchAlbums query (album_search_limit limit))
    limit

/-- A sample track with one artist, used to exercise the fuser theorems. -/
def sampleTrackOneArtist : SpTrack :=
  { name := "Song", artists := [⟨"A"⟩], album_name := "Al",
    album_images := [], duration_ms := 1000, isrc := none, id := "i",
    spotify_url := "u", preview_url := none }

/-- A sample track with an empty artist list. -/
def sampleTrackNoArtist : SpTrack :=
  { name := "Song", artists := [], album_name := "Al",
    album_images := [], duration_ms := 1000, isrc := none, id := "i",
    spotify_url := "u", preview_url := none }


/-! ## The link resolver (`SongLinkService`) -/

/-- A JSON field that may be absent, an explicit `null`, or a string.
`dict.get(key, default)` returns `default` only when the key is absent. -/
inductive JVal where
  | absent
  | null
  | str (s : String)
deriving DecidableEq

/-- `.get('url', default)` / `.get('nativeAppUriMobile')` on a platform entry. -/
def JVal.getStr : JVal → Option String → Option String
  | .absent, d => d
  | .null, _ => none
  | .str s, _ => some s

/-- One platform's entry in the provider's `linksByPlatform` mapping. -/
structure SLEntry where
  url : JVal := .absent
  nativeAppUriMobile : JVal := .absent
deriving DecidableEq

/-- The provider's `linksByPlatform` mapping (`none` = platform absent, in
which case `links.get(platform, {})` yields the empty dict). -/
structure SLPlatforms where
  spotify : Option SLEntry := none
  appleMusic : Option SLEntry := none
  youtubeMusic : Option SLEntry := none
  deezer : Option SLEntry := none
  soundcloud : Option SLEntry := none
  amazonMusic : Option SLEntry := none
  tidal : Option SLEntry := none
deriving DecidableEq

/-- The provider's JSON response body. -/
structure SLBody where
  linksByPlatform : Option SLPlatforms := none
  pageUrl : JVal := .absent
deriving DecidableEq

/-- Outcome of `requests.get(api_url, timeout=10)`: a transport failure or
timeout (the `except` path), or a response with a status code and body. -/
inductive SLResponse where
  | failure
  | success (status : Nat) (body : SLBody)
deriving DecidableEq

/-- `links.get(platform, {}).get('url', d)`. -/
def entryUrl (e : Option SLEntry) (d : Option String) : Option String :=
  (e.getD {}).url.getStr d

/-- `links.get(platform, {}).get('nativeAppUriMobile')`. -/
def entryNative (e : Option SLEntry) : Option String :=
  (e.getD {}).nativeAppUriMobile.getStr none

/-- `models.DSPLinks`. -/
structure DSPLinks where
  spotify : Option String
  apple_music : Option String
  youtube_music : Option String
  deezer : Option String
  soundcloud : Option String
  amazon_music : Option String
  tidal : Option String
deriving DecidableEq

/-- The all-absent-but-spotify fallback `DSPLinks(spotify=spotify_url)`. -/
def fallbackDSPLinks (spotify_url : String) : DSPLinks :=
  { spotify := some spotify_url, apple_music := none, youtube_music := none
    deezer := none, soundcloud := none, amazon_music := none, tidal := none }

/-- `SongLinkService.get_platform_links` (services.py 150-175). -/
def get_platform_links (resp : SLResponse) (spotify_url : String) : DSPLinks :=
  match resp with
  | .failure => fallbackDSPLinks spotify_url
  | .success status body =>
    if status ≠ 200 then fallbackDSPLinks spotify_url
    else
      let links := body.linksByPlatform.getD {}
      { spotify := entryUrl links.spotify (some spotify_url)
        apple_music := entryUrl links.appleMusic none
        youtube_music := entryUrl links.youtubeMusic none
        deezer := entryUrl links.deezer none
        soundcloud := entryUrl links.soundcloud none
        amazon_music := entryUrl links.amazonMusic none
        tidal := entryUrl links.tidal none }

/-- `models.PlatformInfo` (pydantic defaults: `url=None`, `native_app_uri=None`,
`country="US"`). -/
structure PlatformInfo where
  url : Option String := none
  native_app_uri : Option String := none
  country : Option String := some "US"
deriving DecidableEq

/-- `models.DetailedPlatformLinks`. -/
structure DetailedPlatformLinks where
  spotify : Option PlatformInfo := none
  apple_music : Option PlatformInfo := none
  youtube_music : Option PlatformInfo := none
  youtube : Option PlatformInfo := none
  deezer : Option PlatformInfo := none
  soundcloud : Option PlatformInfo := none
  amazon_music : Option PlatformInfo := none
  tidal : Option PlatformInfo := none
  pandora : Option PlatformInfo := none
deriving DecidableEq

/-- `SongLinkService.get_detailed_platform_data` (services.py 177-220).
Note the success branch populates the spotify entry from the response with
*no* source-URL default, unlike the basic mode. -/
def get_detailed_platform_data (resp : SLResponse) (spotify_url : String) :
    DetailedPlatformLinks :=
  match resp with
  | .failure => { spotify := some { url := some spotify_url } }
  | .success status body =>
    if status ≠ 200 then { spotify := some { url := some spotify_url } }
    else
      let links := body.linksByPlatform.getD {}
      { spotify := some { url := entryUrl links.spotify none
                          native_app_uri := entryNative links.spotify }
        apple_music := some { url := entryUrl links.appleMusic none
                              native_app_uri := entryNative links.appleMusic }
        youtube_music := some { url := entryUrl links.youtubeMusic none
                                native_app_uri := entryNative links.youtubeMusic }
        deezer := some { url := entryUrl links.deezer none
                         native_app_uri := entryNative links.deezer }
        amazon_music := some { url := entryUrl links.amazonMusic none
                               native_app_uri := entryNative links.amazonMusic }
        tidal := some { url := entryUrl links.tidal none
                        native_app_uri := entryNative links.tidal } }

/-- `SongLinkService.get_songlink_page_url` (services.py 222-236).  The result
is `Option String` because `data.get('pageUrl', fallback)` returns `None` when
the provider sends an explicit `null`; on every failure path the code returns
the constructed fallback string. -/
def get_songlink_page_url (resp : SLResponse) (spotify_url : String) :
    Option String :=
  match resp with
  | .failure => some ("https://song.link/" ++ spotify_url)
  | .success status body =>
    if status = 200 then
      body.pageUrl.getStr (some ("https://song.link/" ++ spotify_url))
    else some ("https://song.link/" ++ spotify_url)

/-- Does a basic-mode result carry at least one present platform URL? -/
def hasAnyUrl (d : DSPLinks) : Bool :=
  d.spotify.isSome || d.apple_music.isSome || d.youtube_music.isSome ||
  d.deezer.isSome || d.soundcloud.isSome || d.amazon_music.isSome ||
  d.tidal.isSome

/-- The URL carried by an optional platform entry. -/
def piUrl : Option PlatformInfo → Option String
  | none => none
  | some p => p.url

/-- Does a detailed-mode result carry at least one present platform URL? -/
def hasAnyUrlDetailed (d : DetailedPlatformLinks) : Bool :=
  (piUrl d.spotify).isSome || (piUrl d.apple_music).isSome ||
  (piUrl d.youtube_music).isSome || (piUrl d.youtube).isSome ||
  (piUrl d.deezer).isSome || (piUrl d.soundcloud).isSome ||
  (piUrl d.amazon_music).isSome || (piUrl d.tidal).isSome ||
  (piUrl d.pandora).isSome

/-! ## Confidence score (`match_across_platforms`, main.py 100-107) -/

/-- Python truthiness of an optional string: `None` and `""` are falsy. -/
def pyTruthy : Option String → Bool
  | none => false
  | some s => s ≠ ""

/-- `platform_count`: the number of *truthy* links among the six non-spotify
platforms (`1 for link in [...] if link`). -/
def platform_count (links : DSPLinks) : Nat :=
  ([links.apple_music, links.youtube_music, links.deezer, links.amazon_music,
    links.tidal, links.soundcloud].filter pyTruthy).length

/-- `confidence_score = min(0.95, 0.5 + (platform_count * 0.08))`. -/
def confidence_score (links : DSPLinks) : ℚ :=
  min 0.95 (0.5 + (platform_count links : ℚ) * 0.08)

/-! ## Spec-side definitions (for refinement comparisons) -/

/-- The scorer exactly as the spec words it: normalize the three inputs, start
at 0.0, add 0.5 on a mutual-substring title match, 0.3 on a mutual-substring
artist match, add the weighted fuzzy blend, clamp to at most 1.0. -/
def relevance_spec (query title artist : String) : ℚ :=
  let q := clean_string query
  let t := clean_string title
  let a := clean_string artist
  let titleExact := pyIn q.data t.data || pyIn t.data q.data
  let artistMatch := pyIn q.data a.data || pyIn a.data q.data
  let titleFuzzy : ℚ := (fuzzRatioZ q t : ℚ) / 100
  let artistFuzzy : ℚ := (fuzzRatioZ q a : ℚ) / 100
  let combinedFuzzy : ℚ := (fuzzRatioZ q (t ++ " " ++ a) : ℚ) / 100
  min 1 ((if titleExact then 0.5 else 0) + (if artistMatch then 0.3 else 0) +
    (titleFuzzy * 0.4 + artistFuzzy * 0.2 + combinedFuzzy * 0.3))

/-- The platform count as the spec words it: the number of *non-absent* links
among the six non-spotify platforms. -/
def platform_count_spec (links : DSPLinks) : Nat :=
  ([links.apple_music, links.youtube_music, links.deezer, links.amazon_music,
    links.tidal, links.soundcloud].filter Option.isSome).length

/-! ## C1: the relevance score is the clamped weighted sum of the spec -/

/-- C1: for every query, title and artist, `calculate_relevance_score` equals
the spec's clamped weighted sum over the normalized inputs: 0.5 for a mutual
substring match on the title, 0.3 for one on the artist, plus
`titleFuzzy*0.4 + artistFuzzy*0.2 + combinedFuzzy*0.3` (combined comparing the
query against title ++ " " ++ artist), clamped to at most 1.0. -/
theorem relevance_matches_spec (query title artist : String) :
    calculate_relevance_score query title artist =
      relevance_spec query title artist := by
  simp only [calculate_relevance_score, relevance_spec]
  generalize (pyIn (clean_string query).data (clean_string title).data ||
    pyIn (clean_string title).data (clean_string query).data) = b1
  generalize (pyIn (clean_string query).data (clean_string artist).data ||
    pyIn (clean_string artist).data (clean_string query).data) = b2
  cases b1 <;> cases b2 <;> simp

/-! ## C5: the two catalog-search request sizes -/

/-- C5: `search_mixed` issues the track search with `max(5, limit // 2)`
requested items and the album search with `max(3, limit // 3)`; for
`limit = 10` the requests are 5 tracks and 3 albums. -/
theorem search_mixed_request_limits :
    (∀ (st : String → Nat → List SpTrack) (sa : String → Nat → List SpAlbum)
        (q : String) (limit : Nat), 0 < limit →
      search_mixed ⟨st, sa⟩ q limit =
        search_mixed_core q (st q (max 5 (limit / 2))) (sa q (max 3 (limit / 3)))
          limit) ∧
    track_search_limit 10 = 5 ∧ album_search_limit 10 = 3 :=
  ⟨fun _ _ _ _ _ => rfl, rfl, rfl⟩

theorem search_mixed_request_limits_witness :
    0 < 10 ∧ search_mixed ⟨fun _ _ => [], fun _ _ => []⟩ "test" 10 =
      search_mixed_core "test" [] [] 10 :=
  ⟨by decide, search_mixed_request_limits.1 _ _ "test" 10 (by decide)⟩

/-! ## C7: fallback on provider failure or non-200 status -/

/-- C7: whenever the link provider call fails in transport or returns a
non-200 status, `get_platform_links` returns exactly the source URL under
`spotify` with every other platform absent, and `get_songlink_page_url`
returns `"https://song.link/" ++ sourceUrl`. -/
theorem link_fallback_on_failure (resp : SLResponse) (url : String)
    (h : resp = .failure ∨
      ∃ status body, resp = .success status body ∧ status ≠ 200) :
    get_platform_links resp url =
      { spotify := some url, apple_music := none, youtube_music := none
        deezer := none, soundcloud := none, amazon_music := none,
        tidal := none } ∧
    get_songlink_page_url resp url = some ("https://song.link/" ++ url) := by
  rcases h with rfl | ⟨status, body, rfl, hs⟩
  · exact ⟨rfl, rfl⟩
  · refine ⟨?_, ?_⟩
    · simp [get_platform_links, hs, fallbackDSPLinks]
    · simp [get_songlink_page_url, hs]

theorem link_fallback_on_failure_witness :
    get_platform_links (.success 404 {}) "https://open.spotify.com/track/x" =
      { spotify := some "https://open.spotify.com/track/x",
        apple_music := none, youtube_music := none, deezer := none,
        soundcloud := none, amazon_music := none, tidal := none } ∧
    get_songlink_page_url (.success 404 {}) "https://open.spotify.com/track/x" =
      some ("https://song.link/" ++ "https://open.spotify.com/track/x") :=
  link_fallback_on_failure (.success 404 {}) "https://open.spotify.com/track/x"
    (Or.inr ⟨404, {}, rfl, by decide⟩)

/-! ## C9: the confidence score

The code counts *truthy* links (`1 for link in [...] if link`), so a platform
whose URL is present but equal to the empty string is not counted, while the
claim's "non-absent" count does count it.  The two disagree on such links. -/

/-- C9 counterexample: with `apple_music = some ""` (a present, non-absent but
falsy link) the confidence computed by the code differs from the claim's
formula over the count of non-absent links. -/
theorem confidence_nonabsent_counterexample :
    confidence_score
        { spotify := some "s", apple_music := some "", youtube_music := none,
          deezer := none, soundcloud := none, amazon_music := none,
          tidal := none } ≠
      min 0.95 (0.5 + (platform_count_spec
        { spotify := some "s", apple_music := some "", youtube_music := none,
          deezer := none, soundcloud := none, amazon_music := none,
          tidal := none } : ℚ) * 0.08) := by
  norm_num [confidence_score, platform_count, platform_count_spec, pyTruthy]

/-- C9 (amended): the confidence score equals
`min(0.95, 0.5 + platformCount * 0.08)` where `platformCount` counts the
*present and non-empty* (truthy) links among the six non-spotify platforms;
0 truthy platforms give 0.5 and 6 give 0.95 (clamped from 0.98). -/
theorem confidence_score_formula :
    (∀ links, confidence_score links =
      min 0.95 (0.5 + (platform_count links : ℚ) * 0.08)) ∧
    confidence_score (fallbackDSPLinks "src") = 0.5 ∧
    confidence_score
      { spotify := none, apple_music := some "a", youtube_music := some "b",
        deezer := some "c", soundcloud := some "d", amazon_music := some "e",
        tidal := some "f" } = 0.95 := by
  refine ⟨fun _ => rfl, ?_, ?_⟩
  · have h : platform_count (fallbackDSPLinks "src") = 0 := by decide
    norm_num [confidence_score, h, min_def]
  · have h : platform_count
        { spotify := none, apple_music := some "a", youtube_music := some "b",
          deezer := some "c", soundcloud := some "d", amazon_music := some "e",
          tidal := some "f" } = 6 := by decide
    norm_num [confidence_score, h, min_def]

/-! ## C4: empty-string convention and boundedness of the scorer -/

theorem smRatioQ_nonneg (a b : List Char) : 0 ≤ smRatioQ a b := by
  simp only [smRatioQ]
  split
  · positivity
  · norm_num

theorem pyRound_nonneg (q : ℚ) (h : 0 ≤ q) : 0 ≤ pyRound q := by
  have hf : (0 : ℤ) ≤ ⌊q⌋ := Int.le_floor.2 (by exact_mod_cast h)
  unfold pyRound
  split
  · exact hf
  · split
    · omega
    · split <;> omega

theorem fuzzRatioZ_nonneg (s1 s2 : String) : 0 ≤ fuzzRatioZ s1 s2 :=
  pyRound_nonneg _ (by have := smRatioQ_nonneg s1.data s2.data; positivity)

theorem extendFwd_stuck (a b : List Char) (ahi bhi fuel : Nat) (st : FlmBest)
    (h : ¬(st.besti + st.bestsize < ahi ∧ st.bestj + st.bestsize < bhi ∧
      getC a (st.besti + st.bestsize) = getC b (st.bestj + st.bestsize))) :
    extendFwd a b ahi bhi fuel st = st := by
  cases fuel <;> simp only [extendFwd, if_neg h]

theorem flm_nil_left (b : List Char) (blo bhi : Nat) :
    find_longest_match [] b 0 0 blo bhi = ⟨0, blo, 0⟩ := by
  have hloop : (flmLoop [] b 0 0 blo bhi).2 = ⟨0, blo, 0⟩ := by
    simp [flmLoop]
  unfold find_longest_match
  rw [hloop]
  show extendFwd [] b 0 bhi bhi (extendBack [] b 0 blo 0 ⟨0, blo, 0⟩) = _
  rw [show extendBack [] b 0 blo 0 ⟨0, blo, 0⟩ = ⟨0, blo, 0⟩ from rfl]
  exact extendFwd_stuck _ _ _ _ _ _ (by simp)

theorem matchTotal_nil_left (b : List Char) : matchTotal [] b = 0 := by
  unfold matchTotal matchTotalAux
  simp [flm_nil_left]

theorem flmInner_nil_js (j2len : Nat → Nat) (i : Nat) (best : FlmBest) :
    flmInner j2len i [] best = (fun _ => 0, best) := rfl

theorem flmLoop_nil_right (a : List Char) (alo ahi blo bhi : Nat) :
    (flmLoop a [] alo ahi blo bhi).2 = ⟨alo, blo, 0⟩ := by
  unfold flmLoop
  have hb : ∀ c, b2jMap [] c = [] := by
    intro c; simp [b2jMap, charPositions]
  suffices h : ∀ (l : List Nat) (acc : (Nat → Nat) × FlmBest),
      (l.foldl (fun acc i =>
        flmInner acc.1 i (((b2jMap [] (getC a i)).takeWhile
          (fun j => j < bhi)).filter (fun j => blo ≤ j)) acc.2) acc).2 = acc.2 by
    exact h _ _
  intro l
  induction l with
  | nil => intro acc; rfl
  | cons x xs ih =>
    intro acc
    rw [List.foldl_cons, ih]
    simp [hb, flmInner_nil_js]

theorem flm_nil_right (a : List Char) (alo ahi blo : Nat) :
    find_longest_match a [] alo ahi blo 0 = ⟨alo, blo, 0⟩ := by
  unfold find_longest_match
  rw [flmLoop_nil_right]
  show extendFwd a [] ahi 0 0 (extendBack a [] alo blo alo ⟨alo, blo, 0⟩) = _
  have hback : extendBack a [] alo blo alo ⟨alo, blo, 0⟩ = ⟨alo, blo, 0⟩ := by
    cases alo with
    | zero => rfl
    | succ n =>
      simp only [extendBack]
      rw [if_neg]
      rintro ⟨h1, -, -⟩
      exact Nat.lt_irrefl _ h1
  rw [hback]
  rfl

theorem matchTotal_nil_right (a : List Char) : matchTotal a [] = 0 := by
  unfold matchTotal matchTotalAux
  simp [flm_nil_right]

theorem pyRound_zero : pyRound 0 = 0 := by
  norm_num [pyRound]

theorem fuzzRatioZ_empty_left (s : String) (h : s ≠ "") : fuzzRatioZ "" s = 0 := by
  have hd : s.data ≠ [] := fun hc => h (String.ext hc)
  have hl : s.data.length ≠ 0 := fun hc => hd (List.length_eq_zero.1 hc)
  unfold fuzzRatioZ smRatioQ
  simp only [String.data, matchTotal_nil_left]
  rw [if_pos (by simpa using hl)]
  norm_num [pyRound_zero]

theorem fuzzRatioZ_empty_right (s : String) (h : s ≠ "") : fuzzRatioZ s "" = 0 := by
  have hd : s.data ≠ [] := fun hc => h (String.ext hc)
  have hl : s.data.length ≠ 0 := fun hc => hd (List.length_eq_zero.1 hc)
  unfold fuzzRatioZ smRatioQ
  simp only [String.data, matchTotal_nil_right]
  rw [if_pos (by simpa using hl)]
  norm_num [pyRound_zero]

theorem calculate_relevance_score_nonneg (q t a : String) :
    0 ≤ calculate_relevance_score q t a := by
  unfold calculate_relevance_score
  have h1 : (0 : ℚ) ≤ (fuzzRatioZ (clean_string q) (clean_string t) : ℚ) / 100 := by
    have := fuzzRatioZ_nonneg (clean_string q) (clean_string t)
    positivity
  have h2 : (0 : ℚ) ≤ (fuzzRatioZ (clean_string q) (clean_string a) : ℚ) / 100 := by
    have := fuzzRatioZ_nonneg (clean_string q) (clean_string a)
    positivity
  have h3 : (0 : ℚ) ≤ (fuzzRatioZ (clean_string q)
      (clean_string t ++ " " ++ clean_string a) : ℚ) / 100 := by
    have := fuzzRatioZ_nonneg (clean_string q)
      (clean_string t ++ " " ++ clean_string a)
    positivity
  refine le_min (by norm_num) ?_
  split <;> split <;> nlinarith

theorem calculate_relevance_score_le_one (q t a : String) :
    calculate_relevance_score q t a ≤ 1 :=
  min_le_left _ _

/-- C4: the scorer is total (the embedding is a function on all strings), the
fuzzy metric follows the stated empty-string convention — similarity 100
(1.0) for empty vs empty, 0 for empty vs non-empty in either order — and the
score lies in [0, 1] for all inputs. -/
theorem scorer_empty_string_convention :
    fuzzRatioZ "" "" = 100 ∧
    (∀ s : String, s ≠ "" → fuzzRatioZ "" s = 0 ∧ fuzzRatioZ s "" = 0) ∧
    (∀ q t a : String, 0 ≤ calculate_relevance_score q t a ∧
      calculate_relevance_score q t a ≤ 1) := by
  refine ⟨?_, fun s hs => ⟨fuzzRatioZ_empty_left s hs, fuzzRatioZ_empty_right s hs⟩,
    fun q t a => ⟨calculate_relevance_score_nonneg q t a,
      calculate_relevance_score_le_one q t a⟩⟩
  norm_num [fuzzRatioZ, smRatioQ, pyRound]

theorem scorer_empty_string_convention_witness :
    ("a" : String) ≠ "" ∧ fuzzRatioZ "" "a" = 0 ∧ fuzzRatioZ "a" "" = 0 ∧
    0 ≤ calculate_relevance_score "" "" "" ∧
    calculate_relevance_score "" "" "" ≤ 1 :=
  ⟨by decide,
   (scorer_empty_string_convention.2.1 "a" (by decide)).1,
   (scorer_empty_string_convention.2.1 "a" (by decide)).2,
   (scorer_empty_string_convention.2.2 "" "" "").1,
   (scorer_empty_string_convention.2.2 "" "" "").2⟩

/-! ## C10: the `artists[0]` lookup -/

theorem score_track_isSome (q : String) (t : SpTrack) :
    (score_track q t).isSome = true ↔ t.artists ≠ [] := by
  cases h : t.artists <;> simp [score_track, h]

theorem score_album_isSome (q : String) (al : SpAlbum) :
    (score_album q al).isSome = true ↔ al.artists ≠ [] := by
  cases h : al.artists <;> simp [score_album, h]

theorem score_list_isSome_iff {α : Type} (f : α → Option (MixedItem × ℚ))
    (l : List α) :
    (score_list f l).isSome = true ↔ ∀ x ∈ l, (f x).isSome = true := by
  induction l with
  | nil => simp [score_list]
  | cons x xs ih =>
    cases hfx : f x with
    | none => simp [score_list, hfx]
    | some y =>
      cases hxs : score_list f xs with
      | none => simp_all [score_list]
      | some ys => simp_all [score_list]

theorem score_list_eq_none_iff {α : Type} (f : α → Option (MixedItem × ℚ))
    (l : List α) :
    score_list f l = none ↔ ∃ x ∈ l, f x = none := by
  rw [← Option.not_isSome_iff_eq_none, score_list_isSome_iff]
  push_neg
  simp [Option.not_isSome_iff_eq_none]

/-- C10: scoring indexes `artists[0]`; when every candidate returned by the
catalog has a non-empty artist list the whole call succeeds, while a single
candidate with an empty artist list makes the entire `search_mixed` call fail
with no partial result. -/
theorem search_mixed_empty_artists (q : String) (tracks : List SpTrack)
    (albums : List SpAlbum) (limit : Nat) :
    ((∀ t ∈ tracks, t.artists ≠ []) → (∀ al ∈ albums, al.artists ≠ []) →
      (search_mixed_core q tracks albums limit).isSome = true) ∧
    (((∃ t ∈ tracks, t.artists = []) ∨ (∃ al ∈ albums, al.artists = [])) →
      search_mixed_core q tracks albums limit = none) := by
  constructor
  · intro ht ha
    have h1 : (score_list (score_track q) tracks).isSome = true :=
      (score_list_isSome_iff _ _).2 fun t hmem =>
        (score_track_isSome q t).2 (ht t hmem)
    have h2 : (score_list (score_album q) albums).isSome = true :=
      (score_list_isSome_iff _ _).2 fun al hmem =>
        (score_album_isSome q al).2 (ha al hmem)
    obtain ⟨ts, hts⟩ := Option.isSome_iff_exists.1 h1
    obtain ⟨als, hals⟩ := Option.isSome_iff_exists.1 h2
    simp [search_mixed_core, scored_candidates, hts, hals]
  · intro h
    rcases h with ⟨t, htm, hte⟩ | ⟨al, ham, hae⟩
    · have hn : score_list (score_track q) tracks = none :=
        (score_list_eq_none_iff _ _).2 ⟨t, htm, by simp [score_track, hte]⟩
      simp [search_mixed_core, scored_candidates, hn]
    · have hn : score_list (score_album q) albums = none :=
        (score_list_eq_none_iff _ _).2 ⟨al, ham, by simp [score_album, hae]⟩
      cases hts : score_list (score_track q) tracks <;>
        simp [search_mixed_core, scored_candidates, hts, hn]

theorem search_mixed_empty_artists_witness :
    (search_mixed_core "test" [sampleTrackOneArtist] [] 10).isSome = true ∧
    search_mixed_core "test" [sampleTrackNoArtist] [] 10 = none :=
  ⟨(search_mixed_empty_artists "test" _ [] 10).1
      (by intro t htm; simp at htm; subst htm; simp [sampleTrackOneArtist])
      (by simp),
   (search_mixed_empty_artists "test" _ [] 10).2
      (Or.inl ⟨sampleTrackNoArtist, by simp, rfl⟩)⟩

/-! ## C6: scoring uses the first artist, display joins all artists -/

theorem joined_display_ne_first (n0 n1 : String) (rest : List String) :
    pyJoin ", " (n0 :: n1 :: rest) ≠ n0 := by
  intro h
  have hlen := congrArg String.length h
  rw [pyJoin] at hlen
  simp only [String.length_append] at hlen
  have h2 : (", " : String).length = 2 := rfl
  omega

/-- C6: each candidate is scored from the query, its title and only the first
listed artist's name, while the projected metadata's artist field joins all
artist names with ", "; with more than one artist the display string and the
scoring input necessarily differ. -/
theorem scoring_display_asymmetry :
    (∀ (q : String) (t : SpTrack) (a0 : SpArtist) (rest : List SpArtist),
      t.artists = a0 :: rest →
      score_track q t = some (.track (projectTrack t),
        calculate_relevance_score q t.name a0.name) ∧
      (projectTrack t).artist = pyJoin ", " (t.artists.map (·.name)) ∧
      (rest ≠ [] → (projectTrack t).artist ≠ a0.name)) ∧
    (∀ (q : String) (al : SpAlbum) (a0 : SpArtist) (rest : List SpArtist),
      al.artists = a0 :: rest →
      score_album q al = some (.album (projectAlbum al),
        calculate_relevance_score q al.name a0.name) ∧
      (projectAlbum al).artist = pyJoin ", " (al.artists.map (·.name)) ∧
      (rest ≠ [] → (projectAlbum al).artist ≠ a0.name)) := by
  constructor
  · intro q t a0 rest h
    refine ⟨by simp [score_track, h], rfl, ?_⟩
    intro hrest
    cases rest with
    | nil => exact absurd rfl hrest
    | cons r0 rest2 =>
      show (projectTrack t).artist ≠ a0.name
      simp only [projectTrack, h, List.map_cons]
      exact joined_display_ne_first _ _ _
  · intro q al a0 rest h
    refine ⟨by simp [score_album, h], rfl, ?_⟩
    intro hrest
    cases rest with
    | nil => exact absurd rfl hrest
    | cons r0 rest2 =>
      show (projectAlbum al).artist ≠ a0.name
      simp only [projectAlbum, h, List.map_cons]
      exact joined_display_ne_first _ _ _

theorem scoring_display_asymmetry_witness :
    score_track "q"
      { name := "Song", artists := [⟨"A"⟩, ⟨"B"⟩], album_name := "Al",
        album_images := [], duration_ms := 1, isrc := none, id := "i",
        spotify_url := "u", preview_url := none } =
      some (.track (projectTrack
        { name := "Song", artists := [⟨"A"⟩, ⟨"B"⟩], album_name := "Al",
          album_images := [], duration_ms := 1, isrc := none, id := "i",
          spotify_url := "u", preview_url := none }),
        calculate_relevance_score "q" "Song" "A") ∧
    (projectTrack
      { name := "Song", artists := [⟨"A"⟩, ⟨"B"⟩], album_name := "Al",
        album_images := [], duration_ms := 1, isrc := none, id := "i",
        spotify_url := "u", preview_url := none }).artist ≠ "A" :=
  ⟨(scoring_display_asymmetry.1 "q" _ ⟨"A"⟩ [⟨"B"⟩] rfl).1,
   (scoring_display_asymmetry.1 "q" _ ⟨"A"⟩ [⟨"B"⟩] rfl).2.2 (by simp)⟩

/-! ## C8: does link resolution always yield at least one usable link?

No: in *detailed* mode a successful (status 200) provider response whose
`linksByPlatform` is empty produces `PlatformInfo` entries whose `url` fields
are all absent — the spotify entry has no source-URL default in that branch
(services.py lines 191-195).  Basic mode does default the spotify URL, so it
yields a link unless the provider returns an explicit `null` url. -/

/-- C8 counterexample: a successful provider response with an empty body makes
`get_detailed_platform_data` return a mapping with no present URL at all. -/
theorem detailed_links_all_absent :
    hasAnyUrlDetailed (get_detailed_platform_data (.success 200 {})
      "https://open.spotify.com/track/x") = false := by
  rfl

/-- C8 (amended): in basic mode the result always carries a present spotify
URL provided a successful response does not carry an explicit `null` spotify
url (on failure/non-200 it is the source URL, on success it defaults to the
source URL when the field is missing); in detailed mode the source URL is
guaranteed only on the failure and non-200 paths. -/
theorem link_resolution_spotify_present (url : String) (resp : SLResponse)
    (h : ∀ status body, resp = .success status body → status = 200 →
      ((body.linksByPlatform.getD {}).spotify.getD {}).url ≠ JVal.null) :
    (get_platform_links resp url).spotify.isSome = true ∧
    hasAnyUrl (get_platform_links resp url) = true ∧
    ((resp = .failure ∨
        ∃ status body, resp = .success status body ∧ status ≠ 200) →
      piUrl (get_detailed_platform_data resp url).spotify = some url) := by
  have hspot : (get_platform_links resp url).spotify.isSome = true := by
    cases resp with
    | failure => rfl
    | success status body =>
      by_cases hs : status = 200
      · subst hs
        have hnn := h 200 body rfl rfl
        simp only [get_platform_links, if_neg (by omega : ¬(200 ≠ 200))]
        cases hu : ((body.linksByPlatform.getD {}).spotify.getD {}).url with
        | absent => simp [entryUrl, hu, JVal.getStr]
        | null => exact absurd hu hnn
        | str s => simp [entryUrl, hu, JVal.getStr]
      · simp [get_platform_links, hs, fallbackDSPLinks]
  refine ⟨hspot, ?_, ?_⟩
  · unfold hasAnyUrl
    rw [hspot]
    simp
  · rintro (rfl | ⟨status, body, rfl, hs⟩)
    · rfl
    · simp [get_detailed_platform_data, hs, piUrl]

theorem link_resolution_spotify_present_witness :
    (get_platform_links .failure "https://x").spotify.isSome = true ∧
    hasAnyUrl (get_platform_links .failure "https://x") = true ∧
    piUrl (get_detailed_platform_data .failure "https://x").spotify =
      some "https://x" :=
  ⟨(link_resolution_spotify_present "https://x" .failure (by intro s b hc; cases hc)).1,
   (link_resolution_spotify_present "https://x" .failure (by intro s b hc; cases hc)).2.1,
   (link_resolution_spotify_present "https://x" .failure (by intro s b hc; cases hc)).2.2
     (Or.inl rfl)⟩

/-! ## C2: ranking, stability, truncation -/

theorem scoreLE_trans : ∀ x y z : MixedItem × ℚ,
    scoreLE x y = true → scoreLE y z = true → scoreLE x z = true := by
  intro x y z
  simp only [scoreLE, decide_eq_true_eq]
  exact fun h1 h2 => le_trans h2 h1

theorem scoreLE_total : ∀ x y : MixedItem × ℚ,
    (scoreLE x y || scoreLE y x) = true := by
  intro x y
  simp only [scoreLE, Bool.or_eq_true, decide_eq_true_eq]
  exact le_total y.2 x.2

/-- A stable sort leaves each equivalence class of tied elements in input
order: filtering by any predicate that only holds on mutually-tied elements
commutes with `mergeSort`. -/
theorem mergeSort_filter_of_const {α : Type} (le : α → α → Bool)
    (htrans : ∀ a b c, le a b = true → le b c = true → le a c = true)
    (htotal : ∀ a b, (le a b || le b a) = true)
    (l : List α) (p : α → Bool)
    (hp : ∀ x y, p x = true → p y = true → le x y = true) :
    (l.mergeSort le).filter p = l.filter p := by
  have hperm : ((l.mergeSort le).filter p).Perm (l.filter p) :=
    (List.mergeSort_perm l le).filter p
  have hpw : List.Pairwise (fun a b => le a b = true) (l.filter p) :=
    List.pairwise_of_forall_mem_list fun a ha b hb =>
      hp a b (List.of_mem_filter ha) (List.of_mem_filter hb)
  have hsub : (l.filter p).Sublist (l.mergeSort le) :=
    List.sublist_mergeSort htrans htotal hpw (List.filter_sublist l)
  have hsub2 : (l.filter p).Sublist ((l.mergeSort le).filter p) := by
    have h3 := hsub.filter p
    rwa [List.filter_filter, show (fun a => p a && p a) = p by
      funext a; exact Bool.and_self (p a)] at h3
  exact (hsub2.eq_of_length hperm.length_eq.symm).symm

theorem score_list_length {α : Type} (f : α → Option (MixedItem × ℚ)) :
    ∀ (l : List α) (r : List (MixedItem × ℚ)),
      score_list f l = some r → r.length = l.length := by
  intro l
  induction l with
  | nil =>
    intro r h
    simp only [score_list, Option.some.injEq] at h
    simp [← h]
  | cons x xs ih =>
    intro r h
    cases hfx : f x with
    | none => rw [score_list, hfx] at h; simp at h
    | some y =>
      cases hxs : score_list f xs with
      | none => rw [score_list, hfx, hxs] at h; simp at h
      | some ys =>
        rw [score_list, hfx, hxs] at h
        simp at h
        subst h
        simp [ih ys hxs]

/-- C2: on a successful scoring pass, `search_mixed` returns the stable
descending sort of the scored candidates (tracks first, then albums, each in
provider order), truncated to `limit` and with scores stripped; the result
length is `min limit totalCandidates` and hence at most `limit`; the sorted
list is pairwise descending in score; and filtering by any fixed score value
preserves the concatenation order (stability). -/
theorem search_mixed_ranking (q : String) (tracks : List SpTrack)
    (albums : List SpAlbum) (limit : Nat) (scored : List (MixedItem × ℚ))
    (h : scored_candidates q tracks albums = some scored) :
    search_mixed_core q tracks albums limit =
      some (((scored.mergeSort scoreLE).take limit).map Prod.fst) ∧
    scored.length = tracks.length + albums.length ∧
    (∀ r, search_mixed_core q tracks albums limit = some r →
      r.length = min limit (tracks.length + albums.length) ∧
      r.length ≤ limit) ∧
    List.Pairwise (fun x y : MixedItem × ℚ => y.2 ≤ x.2)
      (scored.mergeSort scoreLE) ∧
    (∀ c : ℚ, (scored.mergeSort scoreLE).filter (fun x => decide (x.2 = c)) =
      scored.filter (fun x => decide (x.2 = c))) := by
  have hcore : search_mixed_core q tracks albums limit =
      some (((scored.mergeSort scoreLE).take limit).map Prod.fst) := by
    unfold search_mixed_core
    rw [h]
    rfl
  have hlen : scored.length = tracks.length + albums.length := by
    unfold scored_candidates at h
    cases hts : score_list (score_track q) tracks with
    | none => rw [hts] at h; simp at h
    | some ts =>
      cases hals : score_list (score_album q) albums with
      | none => rw [hts, hals] at h; simp at h
      | some als =>
        rw [hts, hals] at h
        simp at h
        subst h
        simp [List.length_append, score_list_length _ _ _ hts,
          score_list_length _ _ _ hals]
  refine ⟨hcore, hlen, ?_, ?_, ?_⟩
  · intro r hr
    rw [hcore] at hr
    cases hr
    constructor
    · simp [List.length_take, List.length_mergeSort, hlen]
    · simp [List.length_take]
  · have := List.sorted_mergeSort scoreLE_trans scoreLE_total scored
    exact this.imp fun hxy => by
      simpa [scoreLE, decide_eq_true_eq] using hxy
  · intro c
    exact mergeSort_filter_of_const scoreLE scoreLE_trans scoreLE_total scored
      (fun x => decide (x.2 = c)) fun x y hx hy => by
        simp only [decide_eq_true_eq] at hx hy
        simp [scoreLE, hx, hy]

theorem search_mixed_ranking_witness :
    search_mixed_core "test" [sampleTrackOneArtist] [] 10 =
      some (((([(MixedItem.track (projectTrack sampleTrackOneArtist),
        calculate_relevance_score "test" "Song" "A")]).mergeSort
          scoreLE).take 10).map Prod.fst) ∧
    [(MixedItem.track (projectTrack sampleTrackOneArtist),
      calculate_relevance_score "test" "Song" "A")].length = 1 + 0 :=
  ⟨(search_mixed_ranking "test" [sampleTrackOneArtist] [] 10 _ rfl).1,
   (search_mixed_ranking "test" [sampleTrackOneArtist] [] 10 _ rfl).2.1⟩

/-! ## C3: is `clean_string` idempotent?

No.  The `re.sub` feat-removal pass runs *before* whitespace collapsing, so an
input like `"(feat.\nBar)"` — where the newline blocks the regex's `.` — is
not matched on the first pass, but normalizes to `"(feat. bar)"`, which a
second pass removes entirely.  Idempotence does hold whenever the normalized
output contains no feat-parenthetical match (i.e. it is a fixpoint of the
regex pass). -/

theorem char_ofNat_toNat_of_le (n : Nat) (h1 : 97 ≤ n) (h2 : n ≤ 122) :
    (Char.ofNat n).toNat = n := by
  have hv : n.isValidChar := Or.inl (by omega)
  simp only [Char.ofNat, hv, dif_pos, Char.ofNatAux, Char.toNat]
  rfl

theorem pyToLower_toNat (c : Char) : (pyToLower c).toNat =
    if 65 ≤ c.toNat ∧ c.toNat ≤ 90 then c.toNat + 32 else c.toNat := by
  unfold pyToLower
  split
  · rename_i h
    exact char_ofNat_toNat_of_le _ (by omega) (by omega)
  · rfl

theorem pyToLower_idem (c : Char) : pyToLower (pyToLower c) = pyToLower c := by
  by_cases h : 65 ≤ c.toNat ∧ c.toNat ≤ 90
  · have ht : (pyToLower c).toNat = c.toNat + 32 := by
      rw [pyToLower_toNat, if_pos h]
    have hcond : ¬(65 ≤ (pyToLower c).toNat ∧ (pyToLower c).toNat ≤ 90) := by
      rw [ht]; omega
    rw [pyToLower, if_neg hcond]
  · have heq : pyToLower c = c := by rw [pyToLower, if_neg h]
    rw [heq, heq]

theorem pySpace_pyToLower (c : Char) : pySpace (pyToLower c) = pySpace c := by
  by_cases h : 65 ≤ c.toNat ∧ c.toNat ≤ 90
  · have ht : (pyToLower c).toNat = c.toNat + 32 := by
      rw [pyToLower_toNat, if_pos h]
    have h1 : pySpace (pyToLower c) = false := by
      simp only [pySpace, decide_eq_false_iff_not, ht]
      omega
    have h2 : pySpace c = false := by
      simp only [pySpace, decide_eq_false_iff_not]
      omega
    rw [h1, h2]
  · have heq : pyToLower c = c := by rw [pyToLower, if_neg h]
    rw [heq]

theorem lowerList_idem (l : List Char) : lowerList (lowerList l) = lowerList l := by
  simp only [lowerList, List.map_map]
  exact List.map_congr_left fun a _ => pyToLower_idem a

theorem noDoubleSpace_cons (a : Char) (l : List Char) :
    noDoubleSpace (a :: l) =
      ((match l.head? with
        | none => true
        | some b => !(pySpace a && pySpace b)) && noDoubleSpace l) := by
  cases l <;> simp [noDoubleSpace]

theorem noDoubleSpace_tail (a : Char) (l : List Char)
    (h : noDoubleSpace (a :: l) = true) : noDoubleSpace l = true := by
  cases l with
  | nil => rfl
  | cons b bs =>
    simp only [noDoubleSpace, Bool.and_eq_true] at h
    exact h.2

/-- The collapse loop emits no double spaces, only blank spaces, and (when the
previous character was a space) never begins with a space. -/
theorem collapseGo_good : ∀ (v : List Char) (b : Bool),
    (∀ c, (collapseGo b v).head? = some c → b = true → pySpace c = false) ∧
    noDoubleSpace (collapseGo b v) = true ∧
    spacesAreBlank (collapseGo b v) = true := by
  intro v
  induction v with
  | nil =>
    intro b
    refine ⟨fun c hc => by simp [collapseGo] at hc, rfl, rfl⟩
  | cons c cs ih =>
    intro b
    by_cases hc : pySpace c = true
    · cases b with
      | true =>
        have h1 : collapseGo true (c :: cs) = collapseGo true cs := by
          simp [collapseGo, hc]
        rw [h1]
        exact ih true
      | false =>
        have h1 : collapseGo false (c :: cs) = ' ' :: collapseGo true cs := by
          simp [collapseGo, hc]
        rw [h1]
        refine ⟨?_, ?_, ?_⟩
        · intro d hd hb
          cases hb
        · rw [noDoubleSpace_cons]
          rcases hh : (collapseGo true cs).head? with _ | d
          · simp [(ih true).2.1]
          · have hd : pySpace d = false := (ih true).1 d hh rfl
            simp [hd, (ih true).2.1]
        · have h2 : spacesAreBlank (collapseGo true cs) = true := (ih true).2.2
          simp only [spacesAreBlank] at h2
          simp [spacesAreBlank, List.all_cons, h2]
    · have hcf : pySpace c = false := by simpa using hc
      have h1 : collapseGo b (c :: cs) = c :: collapseGo false cs := by
        simp [collapseGo, hcf]
      rw [h1]
      refine ⟨?_, ?_, ?_⟩
      · intro d hd _
        simp at hd
        rw [← hd]
        exact hcf
      · rw [noDoubleSpace_cons]
        rcases hh : (collapseGo false cs).head? with _ | d
        · simp [(ih false).2.1]
        · simp [hcf, (ih false).2.1]
      · have h2 : spacesAreBlank (collapseGo false cs) = true := (ih false).2.2
        simp only [spacesAreBlank] at h2
        simp [spacesAreBlank, List.all_cons, hcf, h2]

/-- A list with no double spaces and only blank spaces is a fixpoint of the
collapse loop. -/
theorem collapseGo_fix : ∀ (l : List Char) (b : Bool),
    noDoubleSpace l = true → spacesAreBlank l = true →
    (b = true → ∀ c, l.head? = some c → pySpace c = false) →
    collapseGo b l = l := by
  intro l
  induction l with
  | nil => intro b _ _ _; rfl
  | cons c cs ih =>
    intro b hnd hbl hhd
    have hbl2 : spacesAreBlank cs = true := by
      simp only [spacesAreBlank, List.all_cons, Bool.and_eq_true] at hbl
      exact hbl.2
    cases b with
    | true =>
      have hcf : pySpace c = false := hhd rfl c rfl
      have h1 : collapseGo true (c :: cs) = c :: collapseGo false cs := by
        simp [collapseGo, hcf]
      rw [h1, ih false (noDoubleSpace_tail c cs hnd) hbl2 (fun hb => by cases hb)]
    | false =>
      by_cases hc : pySpace c = true
      · have hcb : c = ' ' := by
          simp [spacesAreBlank, List.all_cons, hc] at hbl
          exact hbl.1
        have h1 : collapseGo false (c :: cs) = ' ' :: collapseGo true cs := by
          simp [collapseGo, hc]
        have hhd2 : ∀ d, cs.head? = some d → pySpace d = false := by
          intro d hd
          rw [noDoubleSpace_cons] at hnd
          rcases cs with _ | ⟨e, es⟩
          · cases hd
          · simp at hd
            subst hd
            simp [hc] at hnd
            simpa using hnd.1
        rw [h1, ih true (noDoubleSpace_tail c cs hnd) hbl2 (fun _ => hhd2), hcb]
      · have hcf : pySpace c = false := by simpa using hc
        have h1 : collapseGo false (c :: cs) = c :: collapseGo false cs := by
          simp [collapseGo, hcf]
        rw [h1, ih false (noDoubleSpace_tail c cs hnd) hbl2 (fun hb => by cases hb)]

/-! Preservation of the whitespace invariants under `pyStrip` and `lowerList`,
and the fixpoint property of `pyStrip`. -/

theorem dropWhile_head_not {α : Type} (p : α → Bool) :
    ∀ (l : List α) (c : α), (l.dropWhile p).head? = some c → p c = false := by
  intro l
  induction l with
  | nil => intro c h; cases h
  | cons x xs ih =>
    intro c h
    rw [List.dropWhile_cons] at h
    by_cases hx : p x = true
    · rw [if_pos hx] at h
      exact ih c h
    · rw [if_neg hx] at h
      simp at h
      rw [← h]
      simpa using hx

theorem noDoubleSpace_chain (l : List Char) :
    noDoubleSpace l = true ↔
      List.Chain' (fun a b => (pySpace a && pySpace b) = false) l := by
  induction l with
  | nil => simp [noDoubleSpace]
  | cons a l ih =>
    cases l with
    | nil => simp [noDoubleSpace]
    | cons b bs =>
      rw [List.chain'_cons, ← ih]
      cases ha : pySpace a <;> cases hb : pySpace b <;>
        simp [noDoubleSpace, ha, hb]

theorem noDoubleSpace_reverse (l : List Char) (h : noDoubleSpace l = true) :
    noDoubleSpace l.reverse = true := by
  rw [noDoubleSpace_chain] at h ⊢
  rw [List.chain'_reverse]
  exact h.imp fun {a b} hab => by
    show (pySpace b && pySpace a) = false
    rwa [Bool.and_comm]

theorem noDoubleSpace_dropWhile (l : List Char) (h : noDoubleSpace l = true) :
    noDoubleSpace (l.dropWhile (pySpace ·)) = true := by
  induction l with
  | nil => exact h
  | cons c cs ih =>
    rw [List.dropWhile_cons]
    by_cases hc : pySpace c = true
    · simp only [hc, if_true]
      exact ih (noDoubleSpace_tail c cs h)
    · simp only [hc]
      simpa using h

theorem spacesAreBlank_subset (l m : List Char) (hsub : ∀ c ∈ m, c ∈ l)
    (h : spacesAreBlank l = true) : spacesAreBlank m = true := by
  simp only [spacesAreBlank, List.all_eq_true] at h ⊢
  exact fun c hc => h c (hsub c hc)

theorem mem_pyStrip (l : List Char) : ∀ c ∈ pyStrip l, c ∈ l := by
  intro c hc
  unfold pyStrip at hc
  rw [List.mem_reverse] at hc
  have h1 := (List.dropWhile_sublist (l := (l.dropWhile (pySpace ·)).reverse)
    (p := (pySpace ·))).subset hc
  rw [List.mem_reverse] at h1
  exact (List.dropWhile_sublist (l := l) (p := (pySpace ·))).subset h1

theorem noDoubleSpace_pyStrip (l : List Char) (h : noDoubleSpace l = true) :
    noDoubleSpace (pyStrip l) = true := by
  unfold pyStrip
  exact noDoubleSpace_reverse _ (noDoubleSpace_dropWhile _
    (noDoubleSpace_reverse _ (noDoubleSpace_dropWhile _ h)))

theorem pyStrip_head_not_space (l : List Char) (c : Char)
    (h : (pyStrip l).head? = some c) : pySpace c = false := by
  unfold pyStrip at h
  rw [List.head?_reverse] at h
  -- h : getLast? of (dropWhile p (reverse (dropWhile p l))) = some c
  set m := (l.dropWhile (pySpace ·)).reverse with hm
  obtain ⟨t, ht⟩ := List.dropWhile_suffix (l := m) (p := (pySpace ·))
  have hgl : m.getLast? = some c := by
    rw [← ht, List.getLast?_append, h]
    rfl
  rw [hm, List.getLast?_reverse] at hgl
  exact dropWhile_head_not _ _ _ hgl

theorem pyStrip_last_not_space (l : List Char) (c : Char)
    (h : (pyStrip l).getLast? = some c) : pySpace c = false := by
  unfold pyStrip at h
  rw [List.getLast?_reverse] at h
  exact dropWhile_head_not _ _ _ h

theorem pyStrip_fix (l : List Char)
    (hh : ∀ c, l.head? = some c → pySpace c = false)
    (hl : ∀ c, l.getLast? = some c → pySpace c = false) : pyStrip l = l := by
  unfold pyStrip
  have h1 : l.dropWhile (pySpace ·) = l := by
    cases l with
    | nil => rfl
    | cons c cs =>
      rw [List.dropWhile_cons, if_neg]
      simp [hh c rfl]
  rw [h1]
  have h2 : l.reverse.dropWhile (pySpace ·) = l.reverse := by
    cases hr : l.reverse with
    | nil => rfl
    | cons c cs =>
      rw [List.dropWhile_cons, if_neg]
      have : l.reverse.head? = some c := by rw [hr]; rfl
      rw [List.head?_reverse] at this
      simp [hl c this]
  rw [h2, List.reverse_reverse]

/-! Preservation under `lowerList`. -/

theorem noDoubleSpace_lowerList (l : List Char) (h : noDoubleSpace l = true) :
    noDoubleSpace (lowerList l) = true := by
  rw [noDoubleSpace_chain] at h ⊢
  unfold lowerList
  rw [List.chain'_map]
  exact h.imp fun {a b} hab => by
    show (pySpace (pyToLower a) && pySpace (pyToLower b)) = false
    rwa [pySpace_pyToLower, pySpace_pyToLower]

theorem spacesAreBlank_lowerList (l : List Char) (h : spacesAreBlank l = true) :
    spacesAreBlank (lowerList l) = true := by
  simp only [spacesAreBlank, List.all_eq_true, lowerList, List.mem_map] at h ⊢
  rintro x ⟨c, hc, rfl⟩
  have hcspec := h c hc
  cases hb : pySpace c with
  | false =>
    have hpl : pySpace (pyToLower c) = false := by
      rw [pySpace_pyToLower]; exact hb
    simp [hpl]
  | true =>
    have hcb : c = ' ' := by simpa [hb] using hcspec
    subst hcb
    rw [show pyToLower ' ' = ' ' from by decide]
    simp

theorem lowerList_head_not_space (l : List Char) (c : Char)
    (hh : ∀ d, l.head? = some d → pySpace d = false)
    (h : (lowerList l).head? = some c) : pySpace c = false := by
  unfold lowerList at h
  rw [List.head?_map] at h
  cases hl : l.head? with
  | none => rw [hl] at h; cases h
  | some d =>
    rw [hl] at h
    simp at h
    rw [← h, pySpace_pyToLower]
    exact hh d hl

theorem lowerList_last_not_space (l : List Char) (c : Char)
    (hh : ∀ d, l.getLast? = some d → pySpace d = false)
    (h : (lowerList l).getLast? = some c) : pySpace c = false := by
  unfold lowerList at h
  rw [List.getLast?_map] at h
  cases hl : l.getLast? with
  | none => rw [hl] at h; cases h
  | some d =>
    rw [hl] at h
    simp at h
    rw [← h, pySpace_pyToLower]
    exact hh d hl

/-! The amended idempotence statement. -/

theorem clean_string_data (s : String) :
    (clean_string s).data = lowerList (pyStrip (collapseWS (featSub s.data))) := rfl

theorem clean_string_idem_core (s : String)
    (hfix : featSub (clean_string s).data = (clean_string s).data) :
    clean_string (clean_string s) = clean_string s := by
  apply String.ext
  have hfix2 : featSub (lowerList (pyStrip (collapseWS (featSub s.data)))) =
      lowerList (pyStrip (collapseWS (featSub s.data))) := hfix
  show lowerList (pyStrip (collapseWS (featSub
      (lowerList (pyStrip (collapseWS (featSub s.data))))))) =
    lowerList (pyStrip (collapseWS (featSub s.data)))
  rw [hfix2]
  set w := pyStrip (collapseWS (featSub s.data)) with hw
  -- invariants of w
  have hgood := collapseGo_good (featSub s.data) false
  have hnd_w : noDoubleSpace w = true := noDoubleSpace_pyStrip _ hgood.2.1
  have hbl_w : spacesAreBlank w = true :=
    spacesAreBlank_subset _ _ (mem_pyStrip _) hgood.2.2
  -- invariants of u = lowerList w
  have hnd_u : noDoubleSpace (lowerList w) = true := noDoubleSpace_lowerList _ hnd_w
  have hbl_u : spacesAreBlank (lowerList w) = true := spacesAreBlank_lowerList _ hbl_w
  have hh_u : ∀ c, (lowerList w).head? = some c → pySpace c = false :=
    fun c hc => lowerList_head_not_space w c
      (fun d hd => pyStrip_head_not_space _ _ hd) hc
  have hl_u : ∀ c, (lowerList w).getLast? = some c → pySpace c = false :=
    fun c hc => lowerList_last_not_space w c
      (fun d hd => pyStrip_last_not_space _ _ hd) hc
  show lowerList (pyStrip (collapseWS (lowerList w))) = lowerList w
  rw [show collapseWS (lowerList w) = lowerList w from
    collapseGo_fix _ false hnd_u hbl_u (fun hb => by cases hb)]
  rw [pyStrip_fix _ hh_u hl_u, lowerList_idem]

/-- C3 counterexample: `clean_string` is not idempotent; collapsing the
newline inside `"(feat.\nBar)"` creates a fresh feat-parenthetical that only
the second application removes (first pass gives `"(feat. bar)"`, second
gives `""`). -/
theorem clean_string_not_idempotent :
    clean_string (clean_string "(feat.\nBar)") ≠ clean_string "(feat.\nBar)" := by
  decide

/-- C3 (amended): `clean_string` is idempotent on every string whose
normalized form contains no feat-parenthetical match (the regex pass fixes
it), and in particular
`clean_string "Foo (feat. Bar)" = clean_string "FOO" = "foo"`. -/
theorem clean_string_idem_of_no_new_feat :
    (∀ s : String, featSub (clean_string s).data = (clean_string s).data →
      clean_string (clean_string s) = clean_string s) ∧
    clean_string "Foo (feat. Bar)" = "foo" ∧ clean_string "FOO" = "foo" :=
  ⟨clean_string_idem_core, by decide, by decide⟩

theorem clean_string_idem_witness :
    featSub (clean_string "Foo (feat. Bar)").data =
      (clean_string "Foo (feat. Bar)").data ∧
    clean_string (clean_string "Foo (feat. Bar)") =
      clean_string "Foo (feat. Bar)" :=
  ⟨by decide, clean_string_idem_of_no_new_feat.1 "Foo (feat. Bar)" (by decide)⟩

end MusicMatch
